import Mathlib

/-!
Verification of the signed-URL generation and webhook-signature-verification
subsystem of the rs-node SDK.

The definitions below are a shallow embedding of the TypeScript source:

* `verifyWebhook`, `parseWebhook` — src/webhooks.ts
* `Client.generateUrl` — src/client.ts (embedded as `generateUrl`)

Strings are Lean `String`s; byte buffers (`Buffer.from`) are `List Nat`
(UTF-8 bytes); JavaScript numbers that the code only ever uses at integral
values are embedded as `Int`/`Nat` (the claims only exercise integral
values well inside the float64-exact range, where JavaScript arithmetic
and `String(...)` coincide with exact integer arithmetic and decimal
notation).  The ambient clock `Math.floor(Date.now() / 1000)` is passed
explicitly as the `now : Int` argument.  HMAC-SHA256 (node:crypto
`createHmac` with sha256) is implemented concretely per FIPS 180-4 /
RFC 2104.
-/

/-! ## Bytes and UTF-8 (Buffer.from(s) semantics) -/

/-- UTF-8 encoding of a single character, as a list of byte values. -/
def charUtf8 (c : Char) : List Nat :=
  let n := c.toNat
  if n < 128 then [n]
  else if n < 2048 then [192 + n / 64, 128 + n % 64]
  else if n < 65536 then [224 + n / 4096, 128 + n / 64 % 64, 128 + n % 64]
  else [240 + n / 262144, 128 + n / 4096 % 64, 128 + n / 64 % 64, 128 + n % 64]

/-- UTF-8 bytes of a string: the embedding of the node `Buffer.from(s)` byte buffer. -/
def strBytes (s : String) : List Nat := s.data.flatMap charUtf8

/-! ## JavaScript number-to-string (`String(n)`) for integral values -/

/-- Decimal digit character. -/
def digitChar : Nat → Char
  | 0 => '0' | 1 => '1' | 2 => '2' | 3 => '3' | 4 => '4'
  | 5 => '5' | 6 => '6' | 7 => '7' | 8 => '8' | _ => '9'

/-- Little-endian digit characters of a natural number; the first argument
is structural-recursion fuel (any fuel at least the digit count works, and
`natToStr` passes the number itself). -/
def natToRevDigits : Nat → Nat → List Char
  | 0, _ => []
  | fuel + 1, n => if n = 0 then [] else digitChar (n % 10) :: natToRevDigits fuel (n / 10)

/-- Decimal numeral of a natural number, as produced by JavaScript
`String(n)` for integral values in the float64-exact range. -/
def natToStr (n : Nat) : String :=
  if n = 0 then "0" else ⟨(natToRevDigits n n).reverse⟩

/-- Decimal numeral of an integer (JavaScript `String(i)`). -/
def intToStr (i : Int) : String :=
  if i < 0 then "-" ++ natToStr i.natAbs else natToStr i.natAbs

/-- JavaScript `String(b)` for booleans. -/
def boolStr (b : Bool) : String := if b then "true" else "false"

/-! ## JavaScript `parseInt(s, 10)` -/

/-- White-space characters skipped by `parseInt` (ASCII white space and
no-break space; enough for the strings arising in the claims). -/
def jsSpace (c : Char) : Bool :=
  c = ' ' || c = '\t' || c = '\n' || c = '\r' || c = Char.ofNat 11 || c = Char.ofNat 12 ||
    c = Char.ofNat 160

/-- Decimal digit test. -/
def isDigitChar (c : Char) : Bool := 48 ≤ c.toNat && c.toNat ≤ 57

/-- Value of the longest decimal-digit prefix, `none` when there is no
leading digit (`parseInt` yields `NaN` there). -/
def parseDigits (cs : List Char) : Option Nat :=
  let ds := cs.takeWhile isDigitChar
  if ds = [] then none else some (ds.foldl (fun a c => a * 10 + (c.toNat - 48)) 0)

/-- Embedding of JavaScript `parseInt(s, 10)`: skip leading white space,
accept an optional sign, then read the longest digit prefix; `none`
models `NaN`. -/
def parseIntJS (s : String) : Option Int :=
  match s.data.dropWhile jsSpace with
  | [] => none
  | c :: cs =>
    if c = '-' then (parseDigits cs).map (fun n => -(n : Int))
    else if c = '+' then (parseDigits cs).map (fun n => (n : Int))
    else (parseDigits (c :: cs)).map (fun n => (n : Int))

/-! ## SHA-256 (FIPS 180-4) over byte lists -/

/-- Truncation to 32 bits. -/
def w32 (n : Nat) : Nat := n % 4294967296

/-- Right rotation of a 32-bit value. -/
def rotr32 (k n : Nat) : Nat := n / 2 ^ k + n % 2 ^ k * 2 ^ (32 - k)

/-- Logical right shift. -/
def shr32 (k n : Nat) : Nat := n / 2 ^ k

/-- Bitwise complement on 32 bits (for arguments below 2^32). -/
def not32 (n : Nat) : Nat := 4294967295 - n

/-- SHA-256 big sigma 0. -/
def bsig0 (x : Nat) : Nat := Nat.xor (rotr32 2 x) (Nat.xor (rotr32 13 x) (rotr32 22 x))

/-- SHA-256 big sigma 1. -/
def bsig1 (x : Nat) : Nat := Nat.xor (rotr32 6 x) (Nat.xor (rotr32 11 x) (rotr32 25 x))

/-- SHA-256 small sigma 0. -/
def ssig0 (x : Nat) : Nat := Nat.xor (rotr32 7 x) (Nat.xor (rotr32 18 x) (shr32 3 x))

/-- SHA-256 small sigma 1. -/
def ssig1 (x : Nat) : Nat := Nat.xor (rotr32 17 x) (Nat.xor (rotr32 19 x) (shr32 10 x))

/-- SHA-256 choose function. -/
def chF (x y z : Nat) : Nat := Nat.xor (Nat.land x y) (Nat.land (not32 x) z)

/-- SHA-256 majority function. -/
def majF (x y z : Nat) : Nat :=
  Nat.xor (Nat.land x y) (Nat.xor (Nat.land x z) (Nat.land y z))

/-- The eight 32-bit working variables of SHA-256. -/
structure Sha256State where
  a : Nat
  b : Nat
  c : Nat
  d : Nat
  e : Nat
  f : Nat
  g : Nat
  h : Nat

/-- SHA-256 round constants (fractional parts of cube roots of the first
64 primes). -/
def shaK : List Nat :=
  [1116352408, 1899447441, 3049323471, 3921009573, 961987163, 1508970993, 2453635748,
   2870763221, 3624381080, 310598401, 607225278, 1426881987, 1925078388, 2162078206,
   2614888103, 3248222580, 3835390401, 4022224774, 264347078, 604807628, 770255983,
   1249150122, 1555081692, 1996064986, 2554220882, 2821834349, 2952996808, 3210313671,
   3336571891, 3584528711, 113926993, 338241895, 666307205, 773529912, 1294757372,
   1396182291, 1695183700, 1986661051, 2177026350, 2456956037, 2730485921, 2820302411,
   3259730800, 3345764771, 3516065817, 3600352804, 4094571909, 275423344, 430227734,
   506948616, 659060556, 883997877, 958139571, 1322822218, 1537002063, 1747873779,
   1955562222, 2024104815, 2227730452, 2361852424, 2428436474, 2756734187, 3204031479,
   3329325298]

/-- SHA-256 initial hash value. -/
def shaInit : Sha256State :=
  ⟨1779033703, 3144134277, 1013904242, 2773480762, 1359893119, 2600822924, 528734635,
   1541459225⟩

/-- One SHA-256 round, consuming one `(constant, schedule-word)` pair. -/
def sha256Round (st : Sha256State) (kw : Nat × Nat) : Sha256State :=
  let t1 := w32 (st.h + bsig1 st.e + chF st.e st.f st.g + kw.1 + kw.2)
  let t2 := w32 (bsig0 st.a + majF st.a st.b st.c)
  ⟨w32 (t1 + t2), st.a, st.b, st.c, w32 (st.d + t1), st.e, st.f, st.g⟩

/-- Extend the 16-word message block by the given number of schedule
words. -/
def extendW (w : List Nat) : Nat → List Nat
  | 0 => w
  | k + 1 =>
    extendW (w ++ [w32 (ssig1 (w.getD (w.length - 2) 0) + w.getD (w.length - 7) 0 +
      ssig0 (w.getD (w.length - 15) 0) + w.getD (w.length - 16) 0)]) k

/-- Big-endian value of a byte list. -/
def be32Of (l : List Nat) : Nat := l.foldl (fun a b => a * 256 + b) 0

/-- Four big-endian bytes of a 32-bit word. -/
def be32Bytes (n : Nat) : List Nat := [n / 16777216 % 256, n / 65536 % 256, n / 256 % 256, n % 256]

/-- Eight big-endian bytes of a 64-bit value. -/
def be64Bytes (n : Nat) : List Nat :=
  [n / 2 ^ 56 % 256, n / 2 ^ 48 % 256, n / 2 ^ 40 % 256, n / 2 ^ 32 % 256,
   n / 2 ^ 24 % 256, n / 2 ^ 16 % 256, n / 2 ^ 8 % 256, n % 256]

/-- Split a list into chunks of size `n + 1`. -/
def chunksOf (n : Nat) (l : List Nat) : List (List Nat) :=
  if h : l = [] then [] else l.take (n + 1) :: chunksOf n (l.drop (n + 1))
termination_by l.length
decreasing_by
  simp only [List.length_drop]
  have hl : 0 < l.length := List.length_pos.mpr h
  omega

/-- SHA-256 compression of one 64-byte block into the running state. -/
def sha256Compress (st : Sha256State) (block : List Nat) : Sha256State :=
  let w := extendW ((chunksOf 3 block).map be32Of) 48
  let fin := (shaK.zip w).foldl sha256Round st
  ⟨w32 (st.a + fin.a), w32 (st.b + fin.b), w32 (st.c + fin.c), w32 (st.d + fin.d),
   w32 (st.e + fin.e), w32 (st.f + fin.f), w32 (st.g + fin.g), w32 (st.h + fin.h)⟩

/-- SHA-256 padding: a 1-bit, zeros to 56 mod 64 bytes, then the 64-bit
big-endian bit length. -/
def sha256Pad (msg : List Nat) : List Nat :=
  msg ++ 128 :: (List.replicate ((119 - msg.length % 64) % 64) 0 ++ be64Bytes (8 * msg.length))

/-- SHA-256 digest (32 bytes) of a byte list. -/
def sha256Bytes (msg : List Nat) : List Nat :=
  let fin := (chunksOf 63 (sha256Pad msg)).foldl sha256Compress shaInit
  be32Bytes fin.a ++ (be32Bytes fin.b ++ (be32Bytes fin.c ++ (be32Bytes fin.d ++
    (be32Bytes fin.e ++ (be32Bytes fin.f ++ (be32Bytes fin.g ++ be32Bytes fin.h))))))

/-! ## HMAC-SHA256 (RFC 2104) and hex digests -/

/-- HMAC-SHA256 over byte lists.  Keys longer than the 64-byte block are
first hashed, then the key is zero-padded to 64 bytes. -/
def hmacSha256 (key msg : List Nat) : List Nat :=
  let k0 := if 64 < key.length then sha256Bytes key else key
  let kp := k0 ++ List.replicate (64 - k0.length) 0
  sha256Bytes ((kp.map (fun b => Nat.xor b 92)) ++
    sha256Bytes ((kp.map (fun b => Nat.xor b 54)) ++ msg))

/-- Lowercase hexadecimal digit. -/
def hexDigit : Nat → Char
  | 0 => '0' | 1 => '1' | 2 => '2' | 3 => '3' | 4 => '4'
  | 5 => '5' | 6 => '6' | 7 => '7' | 8 => '8' | 9 => '9'
  | 10 => 'a' | 11 => 'b' | 12 => 'c' | 13 => 'd' | 14 => 'e'
  | _ => 'f'

/-- Two lowercase hex characters of one byte. -/
def byteHexChars (b : Nat) : List Char := [hexDigit (b / 16 % 16), hexDigit (b % 16)]

/-- Lowercase hex string of a byte list (the node hex digest output). -/
def bytesToHex (bs : List Nat) : String := ⟨bs.flatMap byteHexChars⟩

/-- Hex HMAC-SHA256 of a message string under a secret string, both taken
as their UTF-8 bytes: the hex digest of the node createHmac sha256 call. -/
def hmacSha256Hex (secret message : String) : String :=
  bytesToHex (hmacSha256 (strBytes secret) (strBytes message))

/-! ## verifyWebhook (src/webhooks.ts) -/

/-- Replay tolerance in seconds (`const tolerance = 5 * 60`). -/
def webhookTolerance : Nat := 5 * 60

/-- The signed message: `` `${timestamp}.${payload}` ``. -/
def webhookMessage (timestamp payload : String) : String := timestamp ++ "." ++ payload

/-- The expected signature header value
`sha256=` followed by the hex HMAC-SHA256 of the message under the secret. -/
def webhookExpectedSig (secret timestamp payload : String) : String :=
  "sha256=" ++ hmacSha256Hex secret (webhookMessage timestamp payload)

/-- The node `crypto.timingSafeEqual` on two byte buffers: `none` models the
`RangeError` thrown on length mismatch, otherwise the equality verdict. -/
def timingSafeEqual (a b : List Nat) : Option Bool :=
  if a.length = b.length then some (a == b) else none

/-- Embedding of `verifyWebhook(payload, signature, timestamp, secret)`;
`now` is the ambient `Math.floor(Date.now() / 1000)`.  The `try/catch`
around `timingSafeEqual` maps the thrown length-mismatch error (`none`)
to `false`. -/
def verifyWebhook (payload signature timestamp secret : String) (now : Int) : Bool :=
  if payload = "" ∨ signature = "" ∨ timestamp = "" ∨ secret = "" then false
  else
    match parseIntJS timestamp with
    | none => false
    | some t =>
      if webhookTolerance < (now - t).natAbs then false
      else
        match timingSafeEqual (strBytes (webhookExpectedSig secret timestamp payload))
            (strBytes signature) with
        | some r => r
        | none => false

/-! ## parseWebhook (src/webhooks.ts)

The payload reaching `parseWebhook` is either an already-decoded
JavaScript value or a string first decoded by `JSON.parse`; the embedding
works on the decoded value, represented by `JsValue`.  Property access on
`null`/`undefined` throws `TypeError`; on other non-objects it yields
`undefined` (`none`). -/

/-- Decoded JSON/JavaScript value. -/
inductive JsValue where
  | nullV
  | boolV (b : Bool)
  | numV (n : Int)
  | strV (s : String)
  | arrV (elems : List JsValue)
  | objV (fields : List (String × JsValue))

/-- Runtime errors parseWebhook can raise past JSON decoding. -/
inductive JsError where
  | typeError
deriving DecidableEq

/-- Field lookup in a decoded object. -/
def lookupField : List (String × JsValue) → String → Option JsValue
  | [], _ => none
  | (k, v) :: rest, key => if k = key then some v else lookupField rest key

/-- JavaScript property read `v[k]`: `null` throws, objects look the key
up, primitives and arrays yield `undefined` for these field names. -/
def getProp : JsValue → String → Except JsError (Option JsValue)
  | .nullV, _ => .error .typeError
  | .objV fs, k => .ok (lookupField fs k)
  | _, _ => .ok none

/-- JavaScript property read on a possibly-`undefined` value
(`undefined[k]` throws `TypeError`). -/
def getPropOpt : Option JsValue → String → Except JsError (Option JsValue)
  | none, _ => .error .typeError
  | some v, k => getProp v k

/-- JavaScript nullish coalescing `v ?? d`. -/
def nullish : Option JsValue → JsValue → JsValue
  | none, d => d
  | some .nullV, d => d
  | some v, _ => v

/-- The `response` object built for `screenshot.completed` events
(fields in the order the object literal writes them). -/
structure RespE where
  url : JsValue
  width : JsValue
  height : JsValue
  format : JsValue
  size : JsValue
  cached : JsValue

/-- The `error` object built for `screenshot.failed` events. -/
structure ErrE where
  code : String
  message : JsValue

/-- The `data` member of a parsed `WebhookEvent`; absent optional members
are `none`. -/
structure EventDataE where
  url : Option JsValue
  batchId : Option JsValue
  response : Option RespE
  error : Option ErrE

/-- An event whose `data` stayed the initial `{}`. -/
def emptyEventData : EventDataE := ⟨none, none, none, none⟩

/-- The parsed `WebhookEvent`: `id`, `type` and the argument passed to
`new Date(...)` are carried verbatim from the payload (`none` models
`undefined`). -/
structure WebhookEventE where
  id : Option JsValue
  eventType : Option JsValue
  timestampArg : Option JsValue
  data : EventDataE

/-- Embedding of `parseWebhook` on the decoded payload value.  The
`switch (data.event)` dispatch keeps `data = {}` for event strings
outside the four known ones and for non-string `event` fields. -/
def parseWebhook (raw : JsValue) : Except JsError WebhookEventE := do
  let idF ← getProp raw "id"
  let evF ← getProp raw "event"
  let tsF ← getProp raw "timestamp"
  let d ←
    match evF with
    | some (.strV ev) =>
      if ev = "screenshot.completed" then do
        let dataF ← getProp raw "data"
        let su ← getPropOpt dataF "screenshot_url"
        let w ← getPropOpt dataF "width"
        let hg ← getPropOpt dataF "height"
        let fm ← getPropOpt dataF "format"
        let sz ← getPropOpt dataF "size"
        let ca ← getPropOpt dataF "cached"
        let u ← getPropOpt dataF "url"
        pure (⟨u, none,
          some ⟨nullish su (.strV ""), nullish w (.numV 0), nullish hg (.numV 0),
            nullish fm (.strV "png"), nullish sz (.numV 0), nullish ca (.boolV false)⟩,
          none⟩ : EventDataE)
      else if ev = "screenshot.failed" then do
        let dataF ← getProp raw "data"
        let er ← getPropOpt dataF "error"
        let u ← getPropOpt dataF "url"
        pure (⟨u, none, none,
          some ⟨"render_failed", nullish er (.strV "Unknown error")⟩⟩ : EventDataE)
      else if ev = "batch.completed" ∨ ev = "batch.failed" then
        pure (⟨none, idF, none, none⟩ : EventDataE)
      else
        pure emptyEventData
    | _ => pure emptyEventData
  pure ⟨idF, evF, tsF, d⟩

/-! ## Client.generateUrl (src/client.ts)

`TakeOptionsConfig` is the options record from src/types.ts; numeric
fields are embedded as `Int`, string-literal unions as `String`. -/

/-- Cookie record from src/types.ts. -/
structure CookieE where
  name : String
  value : String
  domain : Option String
  path : Option String
  expires : Option Int
  httpOnly : Option Bool
  secure : Option Bool
  sameSite : Option String

/-- Geolocation record from src/types.ts. -/
structure GeolocationE where
  latitude : Int
  longitude : Int
  accuracy : Option Int

/-- Basic-auth record. -/
structure AuthBasicE where
  username : String
  password : String

/-- The `TakeOptionsConfig` record (src/types.ts); absent optional fields
are `none`. -/
structure TakeOptionsConfig where
  url : Option String
  html : Option String
  width : Option Int
  height : Option Int
  scale : Option Int
  mobile : Option Bool
  fullPage : Option Bool
  element : Option String
  format : Option String
  quality : Option Int
  waitFor : Option String
  delay : Option Int
  waitForSelector : Option String
  waitForTimeout : Option Int
  preset : Option String
  device : Option String
  blockAds : Option Bool
  blockTrackers : Option Bool
  blockCookieBanners : Option Bool
  blockChatWidgets : Option Bool
  blockUrls : Option (List String)
  blockResources : Option (List String)
  injectScript : Option String
  injectStyle : Option String
  click : Option String
  hide : Option (List String)
  remove : Option (List String)
  darkMode : Option Bool
  reducedMotion : Option Bool
  mediaType : Option String
  userAgent : Option String
  timezone : Option String
  locale : Option String
  geolocation : Option GeolocationE
  headers : Option (List (String × String))
  cookies : Option (List CookieE)
  authBasic : Option AuthBasicE
  authBearer : Option String
  bypassCsp : Option Bool
  cacheTtl : Option Int
  cacheRefresh : Option Bool
  pdfPaperSize : Option String
  pdfWidth : Option String
  pdfHeight : Option String
  pdfLandscape : Option Bool
  pdfMargin : Option String
  pdfMarginTop : Option String
  pdfMarginRight : Option String
  pdfMarginBottom : Option String
  pdfMarginLeft : Option String
  pdfScale : Option Int
  pdfPrintBackground : Option Bool
  pdfPageRanges : Option String
  pdfHeader : Option String
  pdfFooter : Option String
  pdfFitOnePage : Option Bool
  pdfPreferCssPageSize : Option Bool
  storageEnabled : Option Bool
  storagePath : Option String
  storageAcl : Option String

/-- The `params` object generateUrl builds, viewed as the string-keyed
map it is: each of the 19 conditionally-assigned keys maps to its
serialized value (`String(...)` on numbers and booleans) when the config
field is defined. -/
def paramsGet (c : TakeOptionsConfig) : String → Option String := fun k =>
  if k = "url" then c.url
  else if k = "width" then c.width.map intToStr
  else if k = "height" then c.height.map intToStr
  else if k = "scale" then c.scale.map intToStr
  else if k = "mobile" then c.mobile.map boolStr
  else if k = "full_page" then c.fullPage.map boolStr
  else if k = "element" then c.element
  else if k = "format" then c.format
  else if k = "quality" then c.quality.map intToStr
  else if k = "preset" then c.preset
  else if k = "device" then c.device
  else if k = "wait_for" then c.waitFor
  else if k = "delay" then c.delay.map intToStr
  else if k = "block_ads" then c.blockAds.map boolStr
  else if k = "block_trackers" then c.blockTrackers.map boolStr
  else if k = "block_cookie_banners" then c.blockCookieBanners.map boolStr
  else if k = "block_chat_widgets" then c.blockChatWidgets.map boolStr
  else if k = "dark_mode" then c.darkMode.map boolStr
  else if k = "cache_ttl" then c.cacheTtl.map intToStr
  else none

/-- `Object.keys(params)`: the assigned keys in the insertion order of
the `if (config.x !== undefined) params[x] = ...` statements. -/
def paramsKeys (c : TakeOptionsConfig) : List String :=
  (if c.url.isSome then ["url"] else []) ++
  (if c.width.isSome then ["width"] else []) ++
  (if c.height.isSome then ["height"] else []) ++
  (if c.scale.isSome then ["scale"] else []) ++
  (if c.mobile.isSome then ["mobile"] else []) ++
  (if c.fullPage.isSome then ["full_page"] else []) ++
  (if c.element.isSome then ["element"] else []) ++
  (if c.format.isSome then ["format"] else []) ++
  (if c.quality.isSome then ["quality"] else []) ++
  (if c.preset.isSome then ["preset"] else []) ++
  (if c.device.isSome then ["device"] else []) ++
  (if c.waitFor.isSome then ["wait_for"] else []) ++
  (if c.delay.isSome then ["delay"] else []) ++
  (if c.blockAds.isSome then ["block_ads"] else []) ++
  (if c.blockTrackers.isSome then ["block_trackers"] else []) ++
  (if c.blockCookieBanners.isSome then ["block_cookie_banners"] else []) ++
  (if c.blockChatWidgets.isSome then ["block_chat_widgets"] else []) ++
  (if c.darkMode.isSome then ["dark_mode"] else []) ++
  (if c.cacheTtl.isSome then ["cache_ttl"] else [])

/-- Lexicographic comparison of character lists by code point. -/
def charListLe : List Char → List Char → Bool
  | [], _ => true
  | _ :: _, [] => false
  | a :: as, b :: bs =>
    if a.toNat < b.toNat then true
    else if b.toNat < a.toNat then false
    else charListLe as bs

/-- The string order used by `Array.prototype.sort()` with no comparator:
lexicographic in UTF-16 code units, which on these ASCII keys (and on all
basic-multilingual-plane strings) is code-point order. -/
def strLeB (a b : String) : Bool := charListLe a.data b.data

/-- `Array.prototype.join` with separator `&`. -/
def joinAmp : List String → String
  | [] => ""
  | [x] => x
  | x :: y :: rest => x ++ "&" ++ joinAmp (y :: rest)

/-- The canonical query string: sorted keys mapped to `` `${k}=${params[k]}` ``
and joined by `&`. -/
def canonicalString (c : TakeOptionsConfig) : String :=
  joinAmp (((paramsKeys c).mergeSort strLeB).map (fun k => k ++ "=" ++ (paramsGet c k).getD ""))

/-- The signed message: canonical string plus
`` `&expires=${Math.floor(expiresAt.getTime() / 1000)}` ``; `expiresAtMs`
is the millisecond value of the Date argument. -/
def generateUrlMessage (c : TakeOptionsConfig) (expiresAtMs : Int) : String :=
  canonicalString c ++ "&expires=" ++ intToStr (Int.fdiv expiresAtMs 1000)

/-- Embedding of `Client.generateUrl`: the base URL, versioned screenshot
path, signed message, and hex HMAC-SHA256 signature under the API key. -/
def generateUrl (apiKey baseUrl : String) (c : TakeOptionsConfig) (expiresAtMs : Int) : String :=
  baseUrl ++ "/v1/screenshot?" ++ generateUrlMessage c expiresAtMs ++ "&signature=" ++
    hmacSha256Hex apiKey (generateUrlMessage c expiresAtMs)

/-! ## Spec-side canonical message (for claims C7 and C8) -/

/-- The 19 `generateUrl` parameter keys in the insertion order of the
`if (config.x !== undefined) params[x] = ...` statements. -/
def insertionParamKeys : List String :=
  ["url", "width", "height", "scale", "mobile", "full_page", "element", "format", "quality",
   "preset", "device", "wait_for", "delay", "block_ads", "block_trackers",
   "block_cookie_banners", "block_chat_widgets", "dark_mode", "cache_ttl"]

/-- The same 19 keys in ascending lexicographic (byte-wise) order. -/
def urlParamKeys : List String :=
  ["block_ads", "block_chat_widgets", "block_cookie_banners", "block_trackers", "cache_ttl",
   "dark_mode", "delay", "device", "element", "format", "full_page", "height", "mobile",
   "preset", "quality", "scale", "url", "wait_for", "width"]

/-- The sublist of a key list whose keys are present in the params map. -/
def presentKeysIn (c : TakeOptionsConfig) : List String → List String
  | [] => []
  | k :: L => (if (paramsGet c k).isSome then [k] else []) ++ presentKeysIn c L

/-- One `key=value` entry of the canonical string, per the spec: a
present key contributes exactly one entry with its canonical serialized
value, an absent key contributes nothing. -/
def specEntry (k : String) (v : Option String) : List String :=
  match v with
  | some s => [k ++ "=" ++ s]
  | none => []

/-- The signed message as the spec words it: each present parameter
serialized to its one canonical string form (booleans to
`"true"`/`"false"`, numbers to decimal — the serializations recorded in
`paramsGet`), keys in ascending lexicographic order, entries joined by
`&`, followed by `&expires=` and `floor(expiresAtMs / 1000)`. -/
def specCanonicalMessage (c : TakeOptionsConfig) (expiresAtMs : Int) : String :=
  joinAmp (urlParamKeys.flatMap (fun k => specEntry k (paramsGet c k))) ++ "&expires=" ++
    intToStr (Int.fdiv expiresAtMs 1000)

/-- The concrete payload of claim C2. -/
def c2payload : String := "\x7b\"event\":\"screenshot.completed\",\"id\":\"req_abc123\"\x7d"

/-- A decimal integer numeral in the sense of claim C6: an optional sign
followed by one or more decimal digits and nothing else. -/
def decimalIntNumeral (s : String) : Bool :=
  match s.data with
  | [] => false
  | c :: cs =>
    if c = '-' ∨ c = '+' then !cs.isEmpty && cs.all isDigitChar
    else (c :: cs).all isDigitChar

/-- A config with only `url` defined (all other options absent). -/
def c7cfgA : TakeOptionsConfig :=
  ⟨some "https://example.com", none, none, none, none, none, none, none, none, none,
   none, none, none, none, none, none, none, none, none, none, none, none, none, none,
   none, none, none, none, none, none, none, none, none, none, none, none, none, none,
   none, none, none, none, none, none, none, none, none, none, none, none, none, none,
   none, none, none, none, none, none, none, none⟩

/-- A config equal to `c7cfgA` except for a different `url`. -/
def c7cfgB : TakeOptionsConfig :=
  ⟨some "https://example.org", none, none, none, none, none, none, none, none, none,
   none, none, none, none, none, none, none, none, none, none, none, none, none, none,
   none, none, none, none, none, none, none, none, none, none, none, none, none, none,
   none, none, none, none, none, none, none, none, none, none, none, none, none, none,
   none, none, none, none, none, none, none, none⟩

/-- Replace exactly the `html` field of a config, all other fields
unchanged. -/
def withHtml (c : TakeOptionsConfig) (h : Option String) : TakeOptionsConfig :=
  ⟨c.url, h, c.width, c.height, c.scale, c.mobile, c.fullPage, c.element, c.format, c.quality,
   c.waitFor, c.delay, c.waitForSelector, c.waitForTimeout, c.preset, c.device, c.blockAds,
   c.blockTrackers, c.blockCookieBanners, c.blockChatWidgets, c.blockUrls, c.blockResources,
   c.injectScript, c.injectStyle, c.click, c.hide, c.remove, c.darkMode, c.reducedMotion,
   c.mediaType, c.userAgent, c.timezone, c.locale, c.geolocation, c.headers, c.cookies,
   c.authBasic, c.authBearer, c.bypassCsp, c.cacheTtl, c.cacheRefresh, c.pdfPaperSize,
   c.pdfWidth, c.pdfHeight, c.pdfLandscape, c.pdfMargin, c.pdfMarginTop, c.pdfMarginRight,
   c.pdfMarginBottom, c.pdfMarginLeft, c.pdfScale, c.pdfPrintBackground, c.pdfPageRanges,
   c.pdfHeader, c.pdfFooter, c.pdfFitOnePage, c.pdfPreferCssPageSize, c.storageEnabled,
   c.storagePath, c.storageAcl⟩

/-! ## Helper lemmas: bytes, hex digests, lengths -/

theorem strBytes_append (a b : String) : strBytes (a ++ b) = strBytes a ++ strBytes b := by
  simp [strBytes, String.data_append]

theorem sha256Prefix_ne_empty (x : String) : "sha256=" ++ x ≠ "" := by
  intro h
  have h2 := congrArg String.length h
  rw [String.length_append] at h2
  have h7 : ("sha256=" : String).length = 7 := rfl
  have h0 : ("" : String).length = 0 := rfl
  omega

theorem hexDigit_toNat_lt (n : Nat) : (hexDigit n).toNat < 128 := by
  unfold hexDigit
  split <;> decide

theorem charUtf8_ascii (c : Char) (h : c.toNat < 128) : charUtf8 c = [c.toNat] := by
  simp [charUtf8, h]

theorem charUtf8_hexDigit_length (n : Nat) : (charUtf8 (hexDigit n)).length = 1 := by
  rw [charUtf8_ascii _ (hexDigit_toNat_lt n)]
  rfl

theorem strBytes_bytesToHex_length (bs : List Nat) :
    (strBytes (bytesToHex bs)).length = 2 * bs.length := by
  have key : ∀ l : List Nat, ((l.flatMap byteHexChars).flatMap charUtf8).length = 2 * l.length := by
    intro l
    induction l with
    | nil => rfl
    | cons b rest ih =>
      rw [List.flatMap_cons, List.flatMap_append, List.length_append, ih]
      have h1 : ((byteHexChars b).flatMap charUtf8).length = 2 := by
        rw [show byteHexChars b = [hexDigit (b / 16 % 16), hexDigit (b % 16)] from rfl]
        rw [List.flatMap_cons, List.flatMap_cons, List.flatMap_nil]
        rw [List.length_append, List.length_append, charUtf8_hexDigit_length,
          charUtf8_hexDigit_length]
        rfl
      rw [h1]
      simp only [List.length_cons]
      omega
  exact key bs

theorem sha256Bytes_length (m : List Nat) : (sha256Bytes m).length = 32 := by
  simp [sha256Bytes, be32Bytes]

theorem hmacSha256_length (key msg : List Nat) : (hmacSha256 key msg).length = 32 := by
  simp [hmacSha256, sha256Bytes_length]

theorem strBytes_hmacSha256Hex_length (k m : String) :
    (strBytes (hmacSha256Hex k m)).length = 64 := by
  rw [show hmacSha256Hex k m = bytesToHex (hmacSha256 (strBytes k) (strBytes m)) from rfl]
  rw [strBytes_bytesToHex_length, hmacSha256_length]

theorem webhookExpectedSig_bytes_length (s t p : String) :
    (strBytes (webhookExpectedSig s t p)).length = 71 := by
  rw [show webhookExpectedSig s t p = "sha256=" ++ hmacSha256Hex s (webhookMessage t p) from rfl]
  rw [strBytes_append, List.length_append, strBytes_hmacSha256Hex_length]
  rfl

theorem webhookExpectedSig_ne_empty (s t p : String) : webhookExpectedSig s t p ≠ "" :=
  sha256Prefix_ne_empty _

/-! ## Helper lemmas: decimal numerals round-trip through parseInt -/

theorem digitChar_toNat (d : Nat) (h : d < 10) : (digitChar d).toNat = 48 + d := by
  interval_cases d <;> rfl

theorem isDigitChar_digitChar (d : Nat) (h : d < 10) : isDigitChar (digitChar d) = true := by
  interval_cases d <;> rfl

theorem digitChar_not_space (d : Nat) (h : d < 10) : jsSpace (digitChar d) = false := by
  interval_cases d <;> rfl

theorem digitChar_ne_minus (d : Nat) (h : d < 10) : digitChar d ≠ '-' := by
  interval_cases d <;> decide

theorem digitChar_ne_plus (d : Nat) (h : d < 10) : digitChar d ≠ '+' := by
  interval_cases d <;> decide

theorem natToRevDigits_mem (fuel n : Nat) (c : Char) (hc : c ∈ natToRevDigits fuel n) :
    ∃ d, d < 10 ∧ c = digitChar d := by
  induction fuel generalizing n with
  | zero => simp [natToRevDigits] at hc
  | succ f ih =>
    rw [natToRevDigits] at hc
    by_cases h0 : n = 0
    · rw [if_pos h0] at hc
      simp at hc
    · rw [if_neg h0] at hc
      rcases List.mem_cons.mp hc with h | h
      · exact ⟨n % 10, by omega, h⟩
      · exact ih _ h

theorem natToRevDigits_val (fuel n : Nat) (h : n ≤ fuel) :
    ((natToRevDigits fuel n).reverse).foldl (fun a c => a * 10 + (c.toNat - 48)) 0 = n := by
  induction fuel generalizing n with
  | zero =>
    have hn : n = 0 := by omega
    subst hn
    rfl
  | succ f ih =>
    rw [natToRevDigits]
    by_cases h0 : n = 0
    · rw [if_pos h0]
      simp [h0]
    · rw [if_neg h0]
      rw [List.reverse_cons, List.foldl_append]
      rw [ih (n / 10) (by omega)]
      have hd := digitChar_toNat (n % 10) (by omega)
      simp only [List.foldl_cons, List.foldl_nil, hd]
      omega

theorem natToRevDigits_ne_nil (n : Nat) (h : n ≠ 0) : natToRevDigits n n ≠ [] := by
  obtain ⟨f, rfl⟩ : ∃ f, n = f + 1 := ⟨n - 1, by omega⟩
  rw [natToRevDigits, if_neg h]
  exact List.cons_ne_nil _ _

theorem takeWhile_all {α : Type} (p : α → Bool) (l : List α) (h : ∀ c ∈ l, p c = true) :
    l.takeWhile p = l := by
  induction l with
  | nil => rfl
  | cons c rest ih =>
    rw [List.takeWhile_cons, h c (by simp)]
    simp [ih (fun x hx => h x (List.mem_cons_of_mem _ hx))]

theorem natToStr_data_digits (n : Nat) (c : Char) (hc : c ∈ (natToStr n).data) :
    ∃ d, d < 10 ∧ c = digitChar d := by
  by_cases h0 : n = 0
  · subst h0
    simp only [natToStr, if_pos rfl] at hc
    have : c = '0' := by simpa using hc
    exact ⟨0, by omega, by rw [this]; rfl⟩
  · rw [natToStr, if_neg h0] at hc
    exact natToRevDigits_mem _ _ _ (List.mem_reverse.mp hc)

theorem natToStr_data_ne_nil (n : Nat) : (natToStr n).data ≠ [] := by
  by_cases h0 : n = 0
  · subst h0
    simp [natToStr]
  · rw [natToStr, if_neg h0]
    simpa using natToRevDigits_ne_nil n h0

theorem parseDigits_natToStr (n : Nat) : parseDigits (natToStr n).data = some n := by
  rw [parseDigits]
  have hall : ∀ c ∈ (natToStr n).data, isDigitChar c = true := by
    intro c hc
    obtain ⟨d, hd, rfl⟩ := natToStr_data_digits n c hc
    exact isDigitChar_digitChar d hd
  rw [takeWhile_all _ _ hall]
  rw [if_neg (natToStr_data_ne_nil n)]
  by_cases h0 : n = 0
  · subst h0
    rfl
  · rw [natToStr, if_neg h0]
    rw [show (String.mk ((natToRevDigits n n).reverse)).data = (natToRevDigits n n).reverse from rfl]
    rw [natToRevDigits_val n n le_rfl]

theorem dropWhile_head_false {α : Type} (p : α → Bool) (c : α) (rest : List α)
    (h : p c = false) : (c :: rest).dropWhile p = c :: rest := by
  rw [List.dropWhile_cons, h]
  simp

theorem parseIntJS_natToStr (n : Nat) : parseIntJS (natToStr n) = some (n : Int) := by
  obtain ⟨c, rest, hcons⟩ : ∃ c rest, (natToStr n).data = c :: rest := by
    cases h : (natToStr n).data with
    | nil => exact absurd h (natToStr_data_ne_nil n)
    | cons a l => exact ⟨a, l, rfl⟩
  obtain ⟨d, hd, rfl⟩ := natToStr_data_digits n c (by rw [hcons]; simp)
  unfold parseIntJS
  rw [hcons, dropWhile_head_false _ _ _ (digitChar_not_space d hd)]
  simp only [if_neg (digitChar_ne_minus d hd), if_neg (digitChar_ne_plus d hd)]
  rw [← hcons, parseDigits_natToStr]
  rfl

theorem parseIntJS_intToStr (t : Int) : parseIntJS (intToStr t) = some t := by
  rw [intToStr]
  by_cases ht : t < 0
  · rw [if_pos ht]
    have hdata : ("-" ++ natToStr t.natAbs).data = '-' :: (natToStr t.natAbs).data := by
      rw [String.data_append]
      rfl
    unfold parseIntJS
    rw [hdata, dropWhile_head_false _ _ _ (show jsSpace '-' = false from rfl)]
    simp only [if_pos rfl]
    rw [parseDigits_natToStr]
    show some (-(t.natAbs : Int)) = some t
    congr 1
    omega
  · rw [if_neg ht]
    rw [parseIntJS_natToStr]
    congr 1
    omega

theorem natToStr_ne_empty (n : Nat) : natToStr n ≠ "" := by
  intro h
  exact natToStr_data_ne_nil n (congrArg String.data h)

theorem intToStr_ne_empty (t : Int) : intToStr t ≠ "" := by
  rw [intToStr]
  by_cases ht : t < 0
  · rw [if_pos ht]
    intro h
    have h2 := congrArg String.length h
    rw [String.length_append] at h2
    have h1 : ("-" : String).length = 1 := rfl
    have h0 : ("" : String).length = 0 := rfl
    omega
  · rw [if_neg ht]
    exact natToStr_ne_empty _

theorem intToStr_injective (a b : Int) (h : intToStr a = intToStr b) : a = b := by
  have ha := parseIntJS_intToStr a
  rw [h, parseIntJS_intToStr] at ha
  exact (Option.some.injEq ..).mp ha |>.symm

/-! ## Helper lemmas: the timing-safe comparison -/

theorem timingSafeEqual_self (x : List Nat) : timingSafeEqual x x = some true := by
  rw [timingSafeEqual, if_pos rfl]
  simp

theorem timingSafeEqual_len_ne (a b : List Nat) (h : a.length ≠ b.length) :
    timingSafeEqual a b = none := by
  rw [timingSafeEqual, if_neg h]

/-! ## Helper lemmas: verifyWebhook path analysis -/

theorem parseIntJS_empty : parseIntJS "" = none := rfl

theorem verifyWebhook_valid (payload secret ts : String) (t now : Int)
    (hp : payload ≠ "") (hs : secret ≠ "") (hts : parseIntJS ts = some t)
    (hfresh : (now - t).natAbs ≤ webhookTolerance) :
    verifyWebhook payload (webhookExpectedSig secret ts payload) ts secret now = true := by
  have htsne : ts ≠ "" := by
    intro h
    rw [h, parseIntJS_empty] at hts
    exact Option.noConfusion hts
  rw [verifyWebhook,
    if_neg (by push_neg; exact ⟨hp, webhookExpectedSig_ne_empty _ _ _, htsne, hs⟩), hts]
  show (if webhookTolerance < (now - t).natAbs then false
    else match timingSafeEqual (strBytes (webhookExpectedSig secret ts payload))
      (strBytes (webhookExpectedSig secret ts payload)) with
      | some r => r
      | none => false) = true
  rw [if_neg (by omega), timingSafeEqual_self]

theorem verifyWebhook_stale (payload sig ts secret : String) (t now : Int)
    (hts : parseIntJS ts = some t) (hfar : webhookTolerance < (now - t).natAbs) :
    verifyWebhook payload sig ts secret now = false := by
  rw [verifyWebhook]
  by_cases hg : payload = "" ∨ sig = "" ∨ ts = "" ∨ secret = ""
  · rw [if_pos hg]
  · rw [if_neg hg, hts]
    show (if webhookTolerance < (now - t).natAbs then false else _) = false
    rw [if_pos hfar]

theorem verifyWebhook_of_parse_none (payload sig ts secret : String) (now : Int)
    (h : parseIntJS ts = none) : verifyWebhook payload sig ts secret now = false := by
  rw [verifyWebhook]
  by_cases hg : payload = "" ∨ sig = "" ∨ ts = "" ∨ secret = ""
  · rw [if_pos hg]
  · rw [if_neg hg, h]

theorem webhookTolerance_eq : webhookTolerance = 300 := rfl

/-! ## Claims C1 to C6: the webhook verifier -/

/-- C1: round-trip acceptance — for every non-empty payload, non-empty
secret, and integer timestamp `t` with `|now - t| ≤ 300`, verifying the
payload against the signature `"sha256=" ++ hex(HMAC-SHA256(secret,
String(t) ++ "." ++ payload))` (which is `webhookExpectedSig`), the
timestamp string `String(t)`, and the secret returns `true`. -/
theorem c1_roundtrip_acceptance (payload secret : String) (t now : Int)
    (hp : payload ≠ "") (hs : secret ≠ "") (hfresh : (now - t).natAbs ≤ 300) :
    verifyWebhook payload (webhookExpectedSig secret (intToStr t) payload)
      (intToStr t) secret now = true :=
  verifyWebhook_valid payload secret (intToStr t) t now hp hs (parseIntJS_intToStr t)
    (by rw [webhookTolerance_eq]; exact hfresh)

/-- Witness for C1 at a concrete input. -/
theorem c1_roundtrip_acceptance_witness :
    verifyWebhook "payload" (webhookExpectedSig "secret" (intToStr 100) "payload")
      (intToStr 100) "secret" 150 = true :=
  c1_roundtrip_acceptance "payload" "secret" 100 150 (by decide) (by decide) (by decide)

/-- C2: concrete scenario — with secret `whsec_test_secret_key`, the
concrete payload, timestamp `"1705579200"`, and the received signature
equal to the expected `sha256=`-prefixed hex HMAC, verification succeeds
when `now = 1705579200` and fails when `now = 1705579200 + 3600`. -/
theorem c2_concrete_scenario :
    verifyWebhook c2payload (webhookExpectedSig "whsec_test_secret_key" "1705579200" c2payload)
      "1705579200" "whsec_test_secret_key" 1705579200 = true ∧
    verifyWebhook c2payload (webhookExpectedSig "whsec_test_secret_key" "1705579200" c2payload)
      "1705579200" "whsec_test_secret_key" (1705579200 + 3600) = false := by
  constructor
  · exact verifyWebhook_valid c2payload "whsec_test_secret_key" "1705579200" 1705579200
      1705579200 (by decide) (by decide) (by decide) (by decide)
  · exact verifyWebhook_stale _ _ _ _ 1705579200 _ (by decide) (by decide)

/-- C3: boundary timing — a correctly signed payload with
`|now - t| = 299` verifies (the freshness check passes), while any
timestamp parsed to `t` with `|now - t| = 301` is rejected no matter the
signature; `natAbs` makes both directions symmetric. -/
theorem c3_boundary_timing :
    (∀ (payload secret : String) (t now : Int), payload ≠ "" → secret ≠ "" →
      (now - t).natAbs = 299 →
      verifyWebhook payload (webhookExpectedSig secret (intToStr t) payload)
        (intToStr t) secret now = true) ∧
    (∀ (payload sig ts secret : String) (t now : Int), parseIntJS ts = some t →
      (now - t).natAbs = 301 →
      verifyWebhook payload sig ts secret now = false) := by
  constructor
  · intro payload secret t now hp hs h299
    exact verifyWebhook_valid payload secret (intToStr t) t now hp hs (parseIntJS_intToStr t)
      (by rw [webhookTolerance_eq]; omega)
  · intro payload sig ts secret t now hts h301
    exact verifyWebhook_stale payload sig ts secret t now hts
      (by rw [webhookTolerance_eq]; omega)

/-- Witness for C3: 299 seconds passes in both directions, 301 seconds
fails in both directions. -/
theorem c3_boundary_timing_witness :
    verifyWebhook "p" (webhookExpectedSig "k" (intToStr 1000) "p") (intToStr 1000) "k" 1299
      = true ∧
    verifyWebhook "p" (webhookExpectedSig "k" (intToStr 1000) "p") (intToStr 1000) "k" 701
      = true ∧
    verifyWebhook "p" "sig" "1000" "k" 1301 = false ∧
    verifyWebhook "p" "sig" "1000" "k" 699 = false :=
  ⟨c3_boundary_timing.1 "p" "k" 1000 1299 (by decide) (by decide) (by decide),
   c3_boundary_timing.1 "p" "k" 1000 701 (by decide) (by decide) (by decide),
   c3_boundary_timing.2 "p" "sig" "1000" "k" 1000 1301 (by decide) (by decide),
   c3_boundary_timing.2 "p" "sig" "1000" "k" 1000 699 (by decide) (by decide)⟩

/-- C4: malformed-input fail-closed — whenever the payload, signature,
timestamp, or secret is empty, or the timestamp is non-numeric
(`parseInt` yields `NaN`), verifyWebhook returns `false` for every value
of the remaining arguments; the embedding is a total function, so no
exception is possible. -/
theorem c4_malformed_fail_closed (payload sig ts secret : String) (now : Int)
    (h : payload = "" ∨ sig = "" ∨ ts = "" ∨ secret = "" ∨ parseIntJS ts = none) :
    verifyWebhook payload sig ts secret now = false := by
  by_cases hg : payload = "" ∨ sig = "" ∨ ts = "" ∨ secret = ""
  · rw [verifyWebhook, if_pos hg]
  · have hn : parseIntJS ts = none := by tauto
    exact verifyWebhook_of_parse_none payload sig ts secret now hn

/-- Witness for C4: each malformed input in turn. -/
theorem c4_malformed_fail_closed_witness :
    verifyWebhook "" "s" "1" "k" 0 = false ∧
    verifyWebhook "p" "" "1" "k" 0 = false ∧
    verifyWebhook "p" "s" "" "k" 0 = false ∧
    verifyWebhook "p" "s" "1" "" 0 = false ∧
    verifyWebhook "p" "s" "not-a-number" "k" 0 = false :=
  ⟨c4_malformed_fail_closed "" "s" "1" "k" 0 (by decide),
   c4_malformed_fail_closed "p" "" "1" "k" 0 (by decide),
   c4_malformed_fail_closed "p" "s" "" "k" 0 (by decide),
   c4_malformed_fail_closed "p" "s" "1" "" 0 (by decide),
   c4_malformed_fail_closed "p" "s" "not-a-number" "k" 0 (by decide)⟩

/-- C5: length-mismatch safety — on any input that reaches the
comparison step (all gates passed), a received signature whose UTF-8
byte length differs from that of the expected signature returns `false`; the
thrown `RangeError` (the `none` of `timingSafeEqual`) is caught and
mapped to `false`, so no exception escapes. -/
theorem c5_length_mismatch_safe (payload sig ts secret : String) (t now : Int)
    (hp : payload ≠ "") (hsg : sig ≠ "") (hts : ts ≠ "") (hse : secret ≠ "")
    (hparse : parseIntJS ts = some t) (hfresh : (now - t).natAbs ≤ 300)
    (hlen : (strBytes sig).length ≠ (strBytes (webhookExpectedSig secret ts payload)).length) :
    verifyWebhook payload sig ts secret now = false := by
  rw [verifyWebhook, if_neg (by push_neg; exact ⟨hp, hsg, hts, hse⟩), hparse]
  show (if webhookTolerance < (now - t).natAbs then false
    else match timingSafeEqual (strBytes (webhookExpectedSig secret ts payload))
      (strBytes sig) with
      | some r => r
      | none => false) = false
  rw [if_neg (by rw [webhookTolerance_eq]; omega),
    timingSafeEqual_len_ne _ _ (fun hh => hlen hh.symm)]

/-- Witness for C5 at a concrete input (the expected signature has 71
UTF-8 bytes, the received one 5). -/
theorem c5_length_mismatch_safe_witness :
    verifyWebhook "p" "short" "1000" "k" 1000 = false :=
  c5_length_mismatch_safe "p" "short" "1000" "k" 1000 1000 (by decide) (by decide)
    (by decide) (by decide) (by decide) (by decide)
    (by rw [webhookExpectedSig_bytes_length]; decide)

/-- C6 counterexample: `"300abc"` is not a decimal integer numeral, yet a
correctly signed webhook carrying it as timestamp verifies as `true`
(JavaScript `parseInt` accepts the `"300"` prefix), refuting the claim
that verifyWebhook returns `true` only on integer numeral timestamps. -/
theorem c6_counterexample :
    decimalIntNumeral "300abc" = false ∧
    verifyWebhook "p" (webhookExpectedSig "k" "300abc" "p") "300abc" "k" 300 = true :=
  ⟨by decide,
   verifyWebhook_valid "p" "k" "300abc" 300 300 (by decide) (by decide) (by decide) (by decide)⟩

/-- C6 (amended): the parse gate rejects exactly the timestamps on which
`parseInt` yields `NaN` (no leading integer prefix after optional space
and sign): such timestamps always give `false`, and `verifyWebhook` can
return `true` only when `parseInt` succeeds on the timestamp — a strictly
weaker condition than being a decimal integer numeral. -/
theorem c6_amended_parse_gate (payload sig ts secret : String) (now : Int) :
    (parseIntJS ts = none → verifyWebhook payload sig ts secret now = false) ∧
    (verifyWebhook payload sig ts secret now = true → ∃ t, parseIntJS ts = some t) := by
  constructor
  · exact verifyWebhook_of_parse_none payload sig ts secret now
  · intro htrue
    cases hp : parseIntJS ts with
    | none =>
      rw [verifyWebhook_of_parse_none payload sig ts secret now hp] at htrue
      exact Bool.noConfusion htrue
    | some t => exact ⟨t, rfl⟩

/-- Witness for C6 (amended): a non-parseable timestamp is rejected. -/
theorem c6_amended_parse_gate_witness :
    verifyWebhook "p" "s" "abc" "k" 0 = false :=
  (c6_amended_parse_gate "p" "s" "abc" "k" 0).1 (by decide)

/-! ## Claims C9 and C10: the event parser -/

theorem exceptBind_ok {α β ε : Type} (a : α) (f : α → Except ε β) :
    ((Except.ok a : Except ε α) >>= f) = f a := rfl

theorem exceptBind_error {α β ε : Type} (e : ε) (f : α → Except ε β) :
    ((Except.error e : Except ε α) >>= f) = (Except.error e : Except ε β) := rfl

theorem exceptPure {α ε : Type} (a : α) : (pure a : Except ε α) = Except.ok a := rfl

theorem getPropOpt_none (k : String) : getPropOpt none k = .error .typeError := rfl

/-- C9: lenient forward compatibility — a payload decoding to an object
whose `event` field is a string outside the four known values parses,
without raising, to a structurally valid event carrying the `id` and
`timestamp` of the payload (the latter as the argument of `new Date(...)`) and
the empty `data` variant. -/
theorem c9_unknown_event (fs : List (String × JsValue)) (e : String)
    (he : lookupField fs "event" = some (.strV e))
    (h1 : e ≠ "screenshot.completed") (h2 : e ≠ "screenshot.failed")
    (h3 : e ≠ "batch.completed") (h4 : e ≠ "batch.failed") :
    parseWebhook (.objV fs) =
      .ok ⟨lookupField fs "id", some (.strV e), lookupField fs "timestamp", emptyEventData⟩ := by
  simp only [parseWebhook, getProp, exceptBind_ok, he]
  rw [if_neg h1, if_neg h2, if_neg (show ¬(e = "batch.completed" ∨ e = "batch.failed") by tauto)]
  rfl

/-- Witness for C9 at a concrete unknown-event payload. -/
theorem c9_unknown_event_witness :
    parseWebhook (.objV [("event", .strV "future.event"), ("id", .strV "req_9"),
      ("timestamp", .strV "2024-01-18T12:00:00Z")]) =
      .ok ⟨some (.strV "req_9"), some (.strV "future.event"),
        some (.strV "2024-01-18T12:00:00Z"), emptyEventData⟩ :=
  c9_unknown_event _ "future.event" rfl (by decide) (by decide) (by decide) (by decide)

/-- C10: a well-formed object payload with a known screenshot event type
but no `data` field makes parseWebhook throw a `TypeError` (dereferencing
`data.data.…` on `undefined`) instead of returning a defaulted event. -/
theorem c10_missing_data_throws (fs : List (String × JsValue)) (e : String)
    (he : lookupField fs "event" = some (.strV e))
    (hknown : e = "screenshot.completed" ∨ e = "screenshot.failed")
    (hd : lookupField fs "data" = none) :
    parseWebhook (.objV fs) = .error JsError.typeError := by
  rcases hknown with rfl | rfl
  · simp only [parseWebhook, getProp, exceptBind_ok, he, hd]
    simp only [if_true, getPropOpt_none, exceptBind_error]
  · simp only [parseWebhook, getProp, exceptBind_ok, he, hd]
    simp only [if_true, getPropOpt_none, exceptBind_error]
    split <;> rfl

/-- Witness for C10 at a concrete payload missing its `data` member. -/
theorem c10_missing_data_throws_witness :
    parseWebhook (.objV [("event", .strV "screenshot.completed"), ("id", .strV "req_1"),
      ("timestamp", .strV "2024-01-18T12:00:00Z")]) = .error JsError.typeError :=
  c10_missing_data_throws _ "screenshot.completed" rfl (Or.inl rfl) rfl

/-! ## Helper lemmas: the key order -/

theorem charListLe_trans : ∀ a b c : List Char, charListLe a b = true →
    charListLe b c = true → charListLe a c = true
  | [], _, _, _, _ => rfl
  | x :: xs, [], _, h, _ => by simp [charListLe] at h
  | x :: xs, y :: ys, [], _, h => by simp [charListLe] at h
  | x :: xs, y :: ys, z :: zs, h1, h2 => by
    rw [charListLe] at h1 h2 ⊢
    by_cases hxy : x.toNat < y.toNat
    · by_cases hyz : y.toNat < z.toNat
      · rw [if_pos (by omega)]
      · rw [if_neg hyz] at h2
        by_cases hzy : z.toNat < y.toNat
        · rw [if_pos hzy] at h2
          exact absurd h2 (by simp)
        · rw [if_pos (by omega)]
    · rw [if_neg hxy] at h1
      by_cases hyx : y.toNat < x.toNat
      · rw [if_pos hyx] at h1
        exact absurd h1 (by simp)
      · rw [if_neg hyx] at h1
        by_cases hyz : y.toNat < z.toNat
        · rw [if_pos (by omega)]
        · rw [if_neg hyz] at h2
          by_cases hzy : z.toNat < y.toNat
          · rw [if_pos hzy] at h2
            exact absurd h2 (by simp)
          · rw [if_neg hzy] at h2
            rw [if_neg (by omega), if_neg (by omega)]
            exact charListLe_trans xs ys zs h1 h2

theorem charListLe_total : ∀ a b : List Char, (charListLe a b || charListLe b a) = true
  | [], _ => by simp [charListLe]
  | _ :: _, [] => by simp [charListLe]
  | x :: xs, y :: ys => by
    rw [charListLe, charListLe]
    by_cases hxy : x.toNat < y.toNat
    · rw [if_pos hxy]
      simp
    · rw [if_neg hxy]
      by_cases hyx : y.toNat < x.toNat
      · rw [if_pos hyx, if_pos hyx]
        simp
      · rw [if_neg hyx, if_neg hyx, if_neg hxy]
        exact charListLe_total xs ys

theorem charListLe_antisymm : ∀ a b : List Char, charListLe a b = true →
    charListLe b a = true → a = b
  | [], [], _, _ => rfl
  | [], _ :: _, _, h => by simp [charListLe] at h
  | _ :: _, [], h, _ => by simp [charListLe] at h
  | x :: xs, y :: ys, h1, h2 => by
    rw [charListLe] at h1 h2
    by_cases hxy : x.toNat < y.toNat
    · rw [if_neg (by omega), if_pos hxy] at h2
      exact absurd h2 (by simp)
    · rw [if_neg hxy] at h1
      by_cases hyx : y.toNat < x.toNat
      · rw [if_pos hyx] at h1
        exact absurd h1 (by simp)
      · rw [if_neg hyx, if_neg (by omega)] at h2
        rw [if_neg hyx] at h1
        have hc : x = y := Char.eq_of_val_eq (UInt32.toNat.inj (show x.toNat = y.toNat by omega))
        rw [hc, charListLe_antisymm xs ys h1 h2]

theorem strLeB_trans (a b c : String) (hab : strLeB a b = true) (hbc : strLeB b c = true) :
    strLeB a c = true :=
  charListLe_trans a.data b.data c.data hab hbc

theorem strLeB_total (a b : String) : (strLeB a b || strLeB b a) = true :=
  charListLe_total a.data b.data

theorem strLeB_antisymm (a b : String) (hab : strLeB a b = true) (hba : strLeB b a = true) :
    a = b := by
  have hd := charListLe_antisymm a.data b.data hab hba
  cases a with
  | mk ad =>
    cases b with
    | mk bd =>
      simp only at hd
      rw [hd]

/-! ## Helper lemmas: canonicalization of the generateUrl message -/

theorem paramsGet_url (c : TakeOptionsConfig) : paramsGet c "url" = c.url := rfl

theorem paramsGet_width (c : TakeOptionsConfig) : paramsGet c "width" = c.width.map intToStr := rfl

theorem paramsGet_height (c : TakeOptionsConfig) :
    paramsGet c "height" = c.height.map intToStr := rfl

theorem paramsGet_scale (c : TakeOptionsConfig) : paramsGet c "scale" = c.scale.map intToStr := rfl

theorem paramsGet_mobile (c : TakeOptionsConfig) :
    paramsGet c "mobile" = c.mobile.map boolStr := rfl

theorem paramsGet_full_page (c : TakeOptionsConfig) :
    paramsGet c "full_page" = c.fullPage.map boolStr := rfl

theorem paramsGet_element (c : TakeOptionsConfig) : paramsGet c "element" = c.element := rfl

theorem paramsGet_format (c : TakeOptionsConfig) : paramsGet c "format" = c.format := rfl

theorem paramsGet_quality (c : TakeOptionsConfig) :
    paramsGet c "quality" = c.quality.map intToStr := rfl

theorem paramsGet_preset (c : TakeOptionsConfig) : paramsGet c "preset" = c.preset := rfl

theorem paramsGet_device (c : TakeOptionsConfig) : paramsGet c "device" = c.device := rfl

theorem paramsGet_wait_for (c : TakeOptionsConfig) : paramsGet c "wait_for" = c.waitFor := rfl

theorem paramsGet_delay (c : TakeOptionsConfig) : paramsGet c "delay" = c.delay.map intToStr := rfl

theorem paramsGet_block_ads (c : TakeOptionsConfig) :
    paramsGet c "block_ads" = c.blockAds.map boolStr := rfl

theorem paramsGet_block_trackers (c : TakeOptionsConfig) :
    paramsGet c "block_trackers" = c.blockTrackers.map boolStr := rfl

theorem paramsGet_block_cookie_banners (c : TakeOptionsConfig) :
    paramsGet c "block_cookie_banners" = c.blockCookieBanners.map boolStr := rfl

theorem paramsGet_block_chat_widgets (c : TakeOptionsConfig) :
    paramsGet c "block_chat_widgets" = c.blockChatWidgets.map boolStr := rfl

theorem paramsGet_dark_mode (c : TakeOptionsConfig) :
    paramsGet c "dark_mode" = c.darkMode.map boolStr := rfl

theorem paramsGet_cache_ttl (c : TakeOptionsConfig) :
    paramsGet c "cache_ttl" = c.cacheTtl.map intToStr := rfl

theorem paramsKeys_eq_presentKeysIn (c : TakeOptionsConfig) :
    paramsKeys c = presentKeysIn c insertionParamKeys := by
  simp only [paramsKeys, insertionParamKeys, presentKeysIn, List.append_nil,
    paramsGet_url, paramsGet_width, paramsGet_height, paramsGet_scale, paramsGet_mobile,
    paramsGet_full_page, paramsGet_element, paramsGet_format, paramsGet_quality,
    paramsGet_preset, paramsGet_device, paramsGet_wait_for, paramsGet_delay,
    paramsGet_block_ads, paramsGet_block_trackers, paramsGet_block_cookie_banners,
    paramsGet_block_chat_widgets, paramsGet_dark_mode, paramsGet_cache_ttl,
    Option.isSome_map', List.append_assoc]

theorem presentKeysIn_sublist (c : TakeOptionsConfig) (L : List String) :
    (presentKeysIn c L).Sublist L := by
  induction L with
  | nil => exact List.Sublist.refl _
  | cons k L ih =>
    rw [presentKeysIn]
    by_cases h : (paramsGet c k).isSome
    · rw [if_pos h]
      exact List.Sublist.cons₂ k ih
    · rw [if_neg h]
      exact List.Sublist.cons k ih

theorem presentKeysIn_perm (c : TakeOptionsConfig) {l1 l2 : List String} (h : l1.Perm l2) :
    (presentKeysIn c l1).Perm (presentKeysIn c l2) := by
  induction h with
  | nil => exact List.Perm.refl _
  | cons x _ ih =>
    rw [presentKeysIn, presentKeysIn]
    exact ih.append_left _
  | swap x y l =>
    rw [presentKeysIn, presentKeysIn, presentKeysIn, presentKeysIn]
    rw [← List.append_assoc, ← List.append_assoc]
    exact List.perm_append_comm.append_right _
  | trans _ _ ih1 ih2 => exact ih1.trans ih2

theorem mergeSort_presentKeys (c : TakeOptionsConfig) :
    (presentKeysIn c insertionParamKeys).mergeSort strLeB = presentKeysIn c urlParamKeys := by
  have hperm : ((presentKeysIn c insertionParamKeys).mergeSort strLeB).Perm
      (presentKeysIn c urlParamKeys) :=
    (List.mergeSort_perm _ _).trans (presentKeysIn_perm c (List.isPerm_iff.mp (by decide)))
  have hs1 : ((presentKeysIn c insertionParamKeys).mergeSort strLeB).Pairwise
      (fun a b => strLeB a b = true) :=
    List.sorted_mergeSort (fun a b d => strLeB_trans a b d) strLeB_total
      (presentKeysIn c insertionParamKeys)
  have hs2 : (presentKeysIn c urlParamKeys).Pairwise (fun a b => strLeB a b = true) := by
    have hfull : urlParamKeys.Pairwise (fun a b => strLeB a b = true) := by decide
    exact List.Pairwise.sublist (presentKeysIn_sublist c urlParamKeys) hfull
  haveI : IsAntisymm String (fun a b => strLeB a b = true) := ⟨strLeB_antisymm⟩
  exact List.eq_of_perm_of_sorted hperm hs1 hs2

theorem map_presentKeys (c : TakeOptionsConfig) (L : List String) :
    (presentKeysIn c L).map (fun k => k ++ "=" ++ (paramsGet c k).getD "") =
      L.flatMap (fun k => specEntry k (paramsGet c k)) := by
  induction L with
  | nil => rfl
  | cons k L ih =>
    rw [presentKeysIn, List.flatMap_cons, List.map_append, ih]
    cases hv : paramsGet c k with
    | some s => simp [specEntry, hv]
    | none => simp [specEntry, hv]

theorem generateUrlMessage_eq_spec (c : TakeOptionsConfig) (ms : Int) :
    generateUrlMessage c ms = specCanonicalMessage c ms := by
  rw [generateUrlMessage, specCanonicalMessage, canonicalString,
    paramsKeys_eq_presentKeysIn, mergeSort_presentKeys, map_presentKeys]

/-! ## Helper lemmas: string cancellation and joinAmp inequalities -/

theorem strExt (a b : String) (h : a.data = b.data) : a = b := by
  cases a with
  | mk ad =>
    cases b with
    | mk bd =>
      simp only at h
      rw [h]

theorem strAppend_left_cancel (a b c : String) (h : a ++ b = a ++ c) : b = c := by
  apply strExt
  have h2 := congrArg String.data h
  rw [String.data_append, String.data_append] at h2
  exact List.append_cancel_left h2

theorem strAppend_right_cancel (a b t : String) (h : a ++ t = b ++ t) : a = b := by
  apply strExt
  have h2 := congrArg String.data h
  rw [String.data_append, String.data_append] at h2
  exact List.append_cancel_right h2

theorem entry_ne_empty (k s : String) : k ++ "=" ++ s ≠ "" := by
  intro h
  have h2 := congrArg String.length h
  rw [String.length_append, String.length_append] at h2
  have he : ("=" : String).length = 1 := rfl
  have h0 : ("" : String).length = 0 := rfl
  omega

theorem joinAmp_cons_ne_nil (p : String) (rest : List String) (h : rest ≠ []) :
    joinAmp (p :: rest) = p ++ "&" ++ joinAmp rest := by
  cases rest with
  | nil => exact absurd rfl h
  | cons y L => rw [joinAmp]

theorem joinAmp_length (L : List String) (h : L ≠ []) :
    (joinAmp L).length + 1 = (L.map String.length).sum + L.length := by
  induction L with
  | nil => exact absurd rfl h
  | cons x L ih =>
    cases L with
    | nil => simp [joinAmp]
    | cons y L' =>
      rw [joinAmp_cons_ne_nil x (y :: L') (by simp)]
      rw [String.length_append, String.length_append]
      have hamp : ("&" : String).length = 1 := rfl
      have ihh := ih (by simp)
      simp only [List.map_cons, List.sum_cons, List.length_cons] at ihh ⊢
      omega

theorem joinAmp_insert_ne (P S : List String) (e : String) (he : e ≠ "") :
    joinAmp (P ++ e :: S) ≠ joinAmp (P ++ S) := by
  intro h
  by_cases hps : P ++ S = []
  · obtain ⟨hP, hS⟩ := List.append_eq_nil.mp hps
    subst hP
    subst hS
    simp only [List.nil_append, List.append_nil] at h
    exact he h
  · have h1 := joinAmp_length (P ++ e :: S) (by simp)
    have h2 := joinAmp_length (P ++ S) hps
    rw [h] at h1
    simp only [List.map_append, List.sum_append, List.map_cons, List.sum_cons,
      List.length_append, List.length_cons] at h1 h2
    omega

theorem joinAmp_middle_ne (P S : List String) (e e' : String) (hne : e ≠ e') :
    joinAmp (P ++ e :: S) ≠ joinAmp (P ++ e' :: S) := by
  induction P with
  | nil =>
    cases S with
    | nil =>
      simp only [List.nil_append]
      intro h
      exact hne h
    | cons y S' =>
      simp only [List.nil_append]
      intro h
      rw [joinAmp_cons_ne_nil e (y :: S') (by simp),
        joinAmp_cons_ne_nil e' (y :: S') (by simp)] at h
      exact hne (strAppend_right_cancel _ _ _ (strAppend_right_cancel _ _ _ h))
  | cons p P' ih =>
    simp only [List.cons_append]
    intro h
    rw [joinAmp_cons_ne_nil p (P' ++ e :: S) (by simp),
      joinAmp_cons_ne_nil p (P' ++ e' :: S) (by simp)] at h
    exact ih (strAppend_left_cancel _ _ _ h)

theorem joinAmp_specEntry_ne (P S : List String) (k : String) (v w : Option String)
    (hv : v ≠ w) :
    joinAmp (P ++ (specEntry k v ++ S)) ≠ joinAmp (P ++ (specEntry k w ++ S)) := by
  cases v with
  | none =>
    cases w with
    | none => exact absurd rfl hv
    | some s' =>
      rw [specEntry, specEntry]
      simp only [List.nil_append, List.singleton_append]
      exact fun h => joinAmp_insert_ne P S (k ++ "=" ++ s') (entry_ne_empty k s') h.symm
  | some s =>
    cases w with
    | none =>
      rw [specEntry, specEntry]
      simp only [List.nil_append, List.singleton_append]
      exact joinAmp_insert_ne P S (k ++ "=" ++ s) (entry_ne_empty k s)
    | some s' =>
      rw [specEntry, specEntry]
      simp only [List.singleton_append]
      apply joinAmp_middle_ne
      intro h
      exact hv (by rw [strAppend_left_cancel (k ++ "=") s s' h])

theorem flatMap_congr_mem {α β : Type} (L : List α) (f g : α → List β)
    (h : ∀ x ∈ L, f x = g x) : L.flatMap f = L.flatMap g := by
  induction L with
  | nil => rfl
  | cons a L ih =>
    rw [List.flatMap_cons, List.flatMap_cons, h a (by simp),
      ih (fun x hx => h x (by simp [hx]))]

/-! ## Claims C7 and C8: the URL signer -/

/-- C7 counterexample: changing the single field `html` (a screenshot
option the data model admits) leaves the entire signed URL — in
particular its signature component — unchanged, because `generateUrl`
never serializes `html`; so not every single-field change in P alters the
signature. -/
theorem c7_counterexample :
    (withHtml c7cfgA (some "<p>hello</p>")).html ≠ c7cfgA.html ∧
    generateUrl "rs_live_demo_key" "https://api.renderscreenshot.com"
        (withHtml c7cfgA (some "<p>hello</p>")) 1700000000000 =
      generateUrl "rs_live_demo_key" "https://api.renderscreenshot.com" c7cfgA 1700000000000 :=
  ⟨by decide, rfl⟩

/-- C7 (amended): sensitivity holds for the 19 parameters that
`generateUrl` serializes and for second-level expiration changes, at the
level of the signed message (the HMAC preimage whose hex digest is the
signature component): a change of the value of one serialized parameter, or a
change of E altering `floor(E / 1000)`, changes the signed message.
Fields outside the serialized set (such as `html`) and sub-second changes
of E leave the URL unchanged. -/
theorem c7_amended_sensitivity :
    (∀ (c c' : TakeOptionsConfig) (ms : Int) (k : String), k ∈ urlParamKeys →
      (∀ k' ∈ urlParamKeys, k' ≠ k → paramsGet c k' = paramsGet c' k') →
      paramsGet c k ≠ paramsGet c' k →
      generateUrlMessage c ms ≠ generateUrlMessage c' ms) ∧
    (∀ (c : TakeOptionsConfig) (m1 m2 : Int), Int.fdiv m1 1000 ≠ Int.fdiv m2 1000 →
      generateUrlMessage c m1 ≠ generateUrlMessage c m2) := by
  constructor
  · intro c c' ms k hk hoth hdiff heq
    rw [generateUrlMessage_eq_spec, generateUrlMessage_eq_spec, specCanonicalMessage,
      specCanonicalMessage] at heq
    have hjoin := strAppend_right_cancel _ _ _ (strAppend_right_cancel _ _ _ heq)
    obtain ⟨L1, L2, hsplit⟩ := List.append_of_mem hk
    have hnd : (L1 ++ k :: L2).Nodup := by
      rw [← hsplit]
      decide
    have hkL1 : k ∉ L1 := by
      intro hmem
      rcases List.nodup_append.mp hnd with ⟨_, _, hdisj⟩
      exact hdisj hmem (by simp)
    have hkL2 : k ∉ L2 := by
      rcases List.nodup_append.mp hnd with ⟨_, hnd2, _⟩
      exact (List.nodup_cons.mp hnd2).1
    rw [hsplit, List.flatMap_append, List.flatMap_cons, List.flatMap_append,
      List.flatMap_cons] at hjoin
    have hL1 : L1.flatMap (fun x => specEntry x (paramsGet c x)) =
        L1.flatMap (fun x => specEntry x (paramsGet c' x)) := by
      apply flatMap_congr_mem
      intro x hx
      rw [hoth x (by rw [hsplit]; exact List.mem_append_left _ hx)
        (fun hh => hkL1 (hh ▸ hx))]
    have hL2 : L2.flatMap (fun x => specEntry x (paramsGet c x)) =
        L2.flatMap (fun x => specEntry x (paramsGet c' x)) := by
      apply flatMap_congr_mem
      intro x hx
      rw [hoth x (by rw [hsplit]; exact List.mem_append_right _ (List.mem_cons_of_mem _ hx))
        (fun hh => hkL2 (hh ▸ hx))]
    rw [hL1, hL2] at hjoin
    exact joinAmp_specEntry_ne _ _ k _ _ hdiff hjoin
  · intro c m1 m2 hdiv heq
    rw [generateUrlMessage, generateUrlMessage] at heq
    exact hdiv (intToStr_injective _ _ (strAppend_left_cancel _ _ _ heq))

/-- Witness for C7 (amended): a `url` change alters the signed message,
and an expiration change of a full second alters it too. -/
theorem c7_amended_sensitivity_witness :
    generateUrlMessage c7cfgA 1700000000000 ≠ generateUrlMessage c7cfgB 1700000000000 ∧
    generateUrlMessage c7cfgA 1000 ≠ generateUrlMessage c7cfgA 2000 :=
  ⟨c7_amended_sensitivity.1 c7cfgA c7cfgB 1700000000000 "url" (by decide) (by decide)
    (by decide),
   c7_amended_sensitivity.2 c7cfgA 1000 2000 (by decide)⟩

/-- C8: canonical serialization — the signed message built by
`generateUrl` (which serializes each present parameter once, booleans as
`"true"`/`"false"` and numbers as decimal strings, collects `Object.keys`
in insertion order and sorts them with `Array.prototype.sort`) equals the
spec-side construction: present keys in ascending lexicographic order,
entries `key=value` joined by `&`, followed by `&expires=` and
`floor(expiresAtMs / 1000)`. -/
theorem c8_canonical_serialization (c : TakeOptionsConfig) (expiresAtMs : Int) :
    generateUrlMessage c expiresAtMs = specCanonicalMessage c expiresAtMs :=
  generateUrlMessage_eq_spec c expiresAtMs
